import Mathlib

/-!
Shallow embedding of the every-street Route-to-Street Coverage Engine
(src/waco_streets_analyzer.py, src/geojson_handler.py, src/date_utils.py).

Modelling conventions:
* Coordinates are rational pairs; the geometry library exact predicates
  (segment intersection, point/segment distance) are implemented over ℚ.
* The metric used by the geometry library for `geometry.length`
  (a floating-point Euclidean norm in the source) is a parameter
  `dist : Pt → Pt → ℚ`; theorems that need it assume nonnegativity.
* CRS reprojection (`GeoDataFrame.to_crs`) is a parameter
  `proj : String → Pt → Pt` (and `unproj` for the way back): the proj4
  transform itself is an external library.
* Polygon geofences loaded from `static/*.geojson` are modelled by their
  resulting intersection predicates (oracles), since the file contents are
  external inputs.
* Datetimes are UTC microseconds since the epoch (`ℤ`); trip timestamps are
  unix seconds, truncated by Python `int(float(…))`.
* Python exceptions are modelled with `Except String`.
-/

namespace EveryStreet

/-- A 2-D point (lon, lat) with exact rational coordinates. -/
abbrev Pt := ℚ × ℚ

/-- Axis-aligned bounding box `(min_lon, min_lat, max_lon, max_lat)`. -/
structure BBox where
  minLon : ℚ
  minLat : ℚ
  maxLon : ℚ
  maxLat : ℚ
deriving DecidableEq

/-- Twice the signed area of the triangle `p q r`; the standard orientation
test used to decide segment intersection exactly. -/
def orient2 (p q r : Pt) : ℚ :=
  (q.1 - p.1) * (r.2 - p.2) - (q.2 - p.2) * (r.1 - p.1)

/-- Given `r` collinear with segment `p q`, does `r` lie on the segment? -/
def onSegment (p q r : Pt) : Bool :=
  decide (min p.1 q.1 ≤ r.1) && decide (r.1 ≤ max p.1 q.1) &&
  decide (min p.2 q.2 ≤ r.2) && decide (r.2 ≤ max p.2 q.2)

/-- Exact intersection test between segments `a b` and `c d`
(shapely `intersects` for two line segments). -/
def segIntersects (a b c d : Pt) : Bool :=
  let d1 := orient2 c d a
  let d2 := orient2 c d b
  let d3 := orient2 a b c
  let d4 := orient2 a b d
  (decide (d1 * d2 < 0) && decide (d3 * d4 < 0)) ||
  (decide (d1 = 0) && onSegment c d a) ||
  (decide (d2 = 0) && onSegment c d b) ||
  (decide (d3 = 0) && onSegment a b c) ||
  (decide (d4 = 0) && onSegment a b d)

/-- Squared distance from point `r` to segment `p q` (projection clamped to
the segment), exact over ℚ. -/
def ptSegDistSq (r p q : Pt) : ℚ :=
  let dx := q.1 - p.1
  let dy := q.2 - p.2
  let len2 := dx * dx + dy * dy
  if len2 = 0 then (r.1 - p.1) * (r.1 - p.1) + (r.2 - p.2) * (r.2 - p.2)
  else
    let t := ((r.1 - p.1) * dx + (r.2 - p.2) * dy) / len2
    let tc := max 0 (min 1 t)
    let cx := p.1 + tc * dx
    let cy := p.2 + tc * dy
    (r.1 - cx) * (r.1 - cx) + (r.2 - cy) * (r.2 - cy)

/-- Squared distance between segments `a b` and `c d`: zero when they
intersect, otherwise the minimum endpoint-to-segment distance. -/
def segSegDistSq (a b c d : Pt) : ℚ :=
  if segIntersects a b c d then 0
  else
    min (min (ptSegDistSq a c d) (ptSegDistSq b c d))
        (min (ptSegDistSq c a b) (ptSegDistSq d a b))

/-- shapely `box(…).contains(point)`: strict interior containment. -/
def boxContains (b : BBox) (p : Pt) : Bool :=
  decide (b.minLon < p.1) && decide (p.1 < b.maxLon) &&
  decide (b.minLat < p.2) && decide (p.2 < b.maxLat)

/-- Closed bounding-box intersection (rtree `intersection` semantics). -/
def rectIntersects (a b : BBox) : Bool :=
  decide (a.minLon ≤ b.maxLon) && decide (b.minLon ≤ a.maxLon) &&
  decide (a.minLat ≤ b.maxLat) && decide (b.minLat ≤ a.maxLat)

/-- Bounding box of a list of points (geometry `bounds` / `total_bounds`). -/
def bboxOfPts : List Pt → BBox
  | [] => ⟨0, 0, 0, 0⟩
  | p :: ps =>
    ps.foldl
      (fun b q =>
        ⟨min b.minLon q.1, min b.minLat q.2, max b.maxLon q.1, max b.maxLat q.2⟩)
      ⟨p.1, p.2, p.1, p.2⟩

/-- Consecutive vertex pairs of a polyline (`coords[i], coords[i+1]`). -/
def pairsOf (l : List Pt) : List (Pt × Pt) :=
  l.zip l.tail

/-- Polyline length under the metric `dist` (geometry library `.length`). -/
def polyLength (dist : Pt → Pt → ℚ) (l : List Pt) : ℚ :=
  ((pairsOf l).map (fun pq => dist pq.1 pq.2)).sum

/-! ## date_utils.py -/

/-- Microseconds per day. -/
def usPerDay : ℤ := 86400000000

/-- `get_start_of_day`: `date.replace(hour=0, minute=0, second=0,
microsecond=0)`, i.e. floor the UTC datetime (µs since epoch) to its day. -/
def get_start_of_day (d : ℤ) : ℤ := d - d.emod usPerDay

/-- `get_end_of_day`: `date.replace(hour=23, minute=59, second=59,
microsecond=999999)`, the last microsecond of the same day. -/
def get_end_of_day (d : ℤ) : ℤ := get_start_of_day d + usPerDay - 1

/-- Python `int(q)`: truncation toward zero of a rational. -/
def pyInt (q : ℚ) : ℤ := q.num.tdiv (q.den : ℤ)

/-! ## Calendar: `datetime.fromtimestamp(ts, tz=utc).strftime("%Y-%m")` -/

/-- Civil date (year, month, day) from days since the Unix epoch
(proleptic Gregorian calendar, UTC). -/
def civilFromDays (z0 : ℤ) : ℤ × ℤ × ℤ :=
  let z := z0 + 719468
  let era := z.fdiv 146097
  let doe := z - era * 146097
  let yoe := (doe - doe.fdiv 1460 + doe.fdiv 36524 - doe.fdiv 146096).fdiv 365
  let y := yoe + era * 400
  let doy := doe - (365 * yoe + yoe.fdiv 4 - yoe.fdiv 100)
  let mp := (5 * doy + 2).fdiv 153
  let d := doy - (153 * mp + 2).fdiv 5 + 1
  let m := mp + (if mp < 10 then 3 else -9)
  (y + (if m ≤ 2 then 1 else 0), m, d)

/-- Zero-padded two-digit month component of `strftime`. -/
def pad2 (m : ℤ) : String :=
  if m < 10 then "0" ++ toString m else toString m

/-- `datetime.fromtimestamp(ts, tz=utc).strftime("%Y-%m")` for a unix
timestamp in seconds: the month shard key. -/
def monthKey (ts : ℚ) : String :=
  let c := civilFromDays ⌊ts / 86400⌋
  toString c.1 ++ "-" ++ pad2 c.2.1

/-! ## waco_streets_analyzer.py — data model -/

/-- One row of the street-network GeoDataFrame: a named polyline with a
stable `street_id`. -/
structure StreetRow where
  street_id : String
  name : String
  coords : List Pt
deriving DecidableEq

/-- One row of `segments_df`: an atomic two-vertex segment. -/
structure SegRec where
  geometry : Pt × Pt
  street_id : String
  name : String
  segment_id : String
  length : ℚ
deriving DecidableEq

/-- The `WacoStreetsAnalyzer` state after `__init__`. -/
structure Analyzer where
  streets_gdf : List StreetRow
  snap_distance : ℚ
  traveled_segments : Finset ℕ
  segments_df : List SegRec
  spatial_index : List (ℕ × BBox)
  waco_bbox : BBox
deriving DecidableEq

/-- `total_bounds` of a street GeoDataFrame. -/
def totalBounds (rows : List StreetRow) : BBox :=
  bboxOfPts (rows.flatMap StreetRow.coords)

/-- `_get_utm_crs`: the proj4 string for the UTM zone of the data centroid. -/
def get_utm_crs (rows : List StreetRow) : String :=
  let b := totalBounds rows
  let lon := (b.minLon + b.maxLon) / 2
  let lat := (b.minLat + b.maxLat) / 2
  let zone := pyInt ((lon + 180) / 6) + 1
  let hemisphere := if lat ≥ 0 then "north" else "south"
  "+proj=utm +zone=" ++ toString zone ++ " +" ++ hemisphere ++
    " +datum=WGS84 +units=m +no_defs"

/-- The segments a single (already projected) street contributes:
one `SegRec` per consecutive vertex pair, with `segment_id` equal to
`street_id_i` and `length` measured (by `dist`) in the projected CRS. -/
def segmentsOfStreet (dist : Pt → Pt → ℚ) (s : StreetRow) : List SegRec :=
  (pairsOf s.coords).enum.map fun e =>
    { geometry := e.2
      street_id := s.street_id
      name := s.name
      segment_id := s.street_id ++ "_" ++ toString e.1
      length := dist e.2.1 e.2.2 }

/-- `_process_streets_into_segments`: project the street network to the
centroid UTM CRS, cut each street into two-vertex segments, compute each
segment `length` in the projected CRS, then store segment geometries back
in WGS84.  Returns (projected streets, segments, `total_bounds` of the
projected streets — note the source computes `waco_bbox` from the
still-projected `streets_gdf`). -/
def process_streets_into_segments (proj unproj : String → Pt → Pt)
    (dist : Pt → Pt → ℚ) (raw : List StreetRow) :
    List StreetRow × List SegRec × BBox :=
  let crs := get_utm_crs raw
  let projected := raw.map fun s => { s with coords := s.coords.map (proj crs) }
  let segsUtm := projected.flatMap (segmentsOfStreet dist)
  let segs := segsUtm.map fun r =>
    { r with geometry := (unproj crs r.geometry.1, unproj crs r.geometry.2) }
  (projected, segs, totalBounds projected)

/-- `_create_spatial_index`: rtree of each segment bounding box keyed by
its positional index. -/
def create_spatial_index (segs : List SegRec) : List (ℕ × BBox) :=
  segs.enum.map fun e => (e.1, bboxOfPts [e.2.geometry.1, e.2.geometry.2])

/-- `WacoStreetsAnalyzer.__init__` on an already-read street file. -/
def mkAnalyzer (proj unproj : String → Pt → Pt) (dist : Pt → Pt → ℚ)
    (raw : List StreetRow) (snap_distance : ℚ) : Analyzer :=
  let t := process_streets_into_segments proj unproj dist raw
  { streets_gdf := t.1
    snap_distance := snap_distance
    traveled_segments := ∅
    segments_df := t.2.1
    spatial_index := create_spatial_index t.2.1
    waco_bbox := t.2.2 }

/-! ## waco_streets_analyzer.py — route matching -/

/-- A route argument as passed to `_process_route`: `none` models a value
that is not a dict with `geometry.coordinates`; otherwise the raw
coordinate arrays. -/
abbrev Route := Option (List (List ℚ))

/-- `Point(c[0], c[1])`: raises `IndexError` when the coordinate array has
fewer than two entries. -/
def mkPoint (c : List ℚ) : Except String Pt :=
  match c with
  | x :: y :: _ => .ok (x, y)
  | _ => .error "IndexError"

/-- Positional indices of the segments whose geometry intersects the line
`p q` (`segments_df[segments_df.intersects(line)].index`). -/
def segHits (a : Analyzer) (p q : Pt) : Finset ℕ :=
  ((a.segments_df.enum.filter fun e =>
      segIntersects e.2.geometry.1 e.2.geometry.2 p q).map Prod.fst).toFinset

/-- The loop body of `_process_route` over the remaining consecutive
coordinate pairs, threading the accumulated `traveled_segments`. -/
def processRoutePairs (a : Analyzer) :
    List (List ℚ × List ℚ) → Finset ℕ → Except String (Finset ℕ)
  | [], acc => .ok acc
  | c :: rest, acc =>
    match mkPoint c.1 with
    | .error e => .error e
    | .ok sp =>
      match mkPoint c.2 with
      | .error e => .error e
      | .ok ep =>
        let acc' :=
          if boxContains a.waco_bbox sp || boxContains a.waco_bbox ep then
            acc ∪ segHits a sp ep
          else acc
        processRoutePairs a rest acc'

/-- `_process_route`: walk consecutive coordinate pairs; when either
endpoint is strictly inside `waco_box`, add every segment whose geometry
intersects the raw (unbuffered) pair line.  Neither `snap_distance` nor
the spatial index is consulted. -/
def process_route (a : Analyzer) (route : Route) : Except String (Finset ℕ) :=
  match route with
  | none => .ok ∅
  | some coords => processRoutePairs a (coords.zip coords.tail) ∅

/-- The loop of `process_chunk` over the routes of one chunk. -/
def processChunkAux (a : Analyzer) :
    List Route → Finset ℕ → Except String (Finset ℕ)
  | [], acc => .ok acc
  | r :: rest, acc =>
    match process_route a r with
    | .error e => .error e
    | .ok s => processChunkAux a rest (acc ∪ s)

/-- `process_chunk`: union of `_process_route` over the chunk routes
(the progress-callback branch only logs).  An exception from any route
propagates: there is no per-route isolation. -/
def process_chunk (a : Analyzer) (chunk : List Route) :
    Except String (Finset ℕ) :=
  processChunkAux a chunk ∅

/-- Structural worker for `chunksOf`: the fuel bounds the number of slices
and is never exhausted when it starts at `l.length` with `0 < n`. -/
def chunksOfFuel (n : ℕ) : ℕ → List α → List (List α)
  | _, [] => []
  | 0, _ :: _ => []
  | fuel + 1, x :: xs => (x :: xs).take n :: chunksOfFuel n fuel ((x :: xs).drop n)

/-- Python slicing `[l[i:i+n] for i in range(0, len(l), n)]`. -/
def chunksOf (n : ℕ) (l : List α) : List (List α) :=
  chunksOfFuel n l.length l

/-- Sequential `pool.map f chunks`: the first raised exception propagates. -/
def mapExcept (f : α → Except String β) : List α → Except String (List β)
  | [] => .ok []
  | x :: xs =>
    match f x with
    | .error e => .error e
    | .ok y =>
      match mapExcept f xs with
      | .error e => .error e
      | .ok ys => .ok (y :: ys)

/-- Sum of the `length` column of `segments_df`. -/
def totalLength (a : Analyzer) : ℚ :=
  (a.segments_df.map SegRec.length).sum

/-- `segments_df.loc[list(traveled_segments), length].sum()` (the
traveled ids are positional labels of `segments_df`). -/
def traveledLength (a : Analyzer) : ℚ :=
  ((a.segments_df.enum.filter fun e =>
      decide (e.1 ∈ a.traveled_segments)).map fun e => e.2.length).sum

/-- `calculate_progress`: percentage of traveled length, returning 0 when
the total length is 0. -/
def calculate_progress (a : Analyzer) : ℚ :=
  if totalLength a = 0 then 0
  else traveledLength a / totalLength a * 100

/-- `reset_progress`: clear `traveled_segments` (and nothing else). -/
def reset_progress (a : Analyzer) : Analyzer :=
  { a with traveled_segments := ∅ }

/-- The single state mutation of `update_progress`
(`self.traveled_segments.update(result)` for each worker result). -/
def applyDelta (a : Analyzer) (delta : Finset ℕ) : Analyzer :=
  { a with traveled_segments := a.traveled_segments ∪ delta }

/-- `update_progress`: split the batch into chunks of size
`max 1 (len // (nproc - 1))`, map `process_chunk` over the chunks,
union all worker results into `traveled_segments`, and return the new
state with `calculate_progress`.  Any worker exception is logged and
re-raised, leaving `traveled_segments` untouched. -/
def update_progress (a : Analyzer) (new_routes : List Route) (nproc : ℕ) :
    Except String (Analyzer × ℚ) :=
  let chunk_size := max 1 (new_routes.length / (nproc - 1))
  let chunks := chunksOf chunk_size new_routes
  match mapExcept (process_chunk a) chunks with
  | .error e => .error e
  | .ok results =>
    let a' := { a with
      traveled_segments := results.foldl (fun t s => t ∪ s) a.traveled_segments }
    .ok (a', calculate_progress a')

/-! ## waco_streets_analyzer.py — query/reporting -/

/-- One feature of the progress GeoJSON. -/
structure GeoFeature where
  geometry : Pt × Pt
  segment_id : String
  street_id : String
  name : String
  traveled : Bool
deriving DecidableEq

/-- The feature emitted for `segments_df` row `i`: `traveled` is membership
of the positional index in `traveled_segments`. -/
def mkGeoFeature (a : Analyzer) (i : ℕ) (s : SegRec) : GeoFeature :=
  { geometry := s.geometry
    segment_id := s.segment_id
    street_id := s.street_id
    name := s.name
    traveled := decide (i ∈ a.traveled_segments) }

/-- `get_progress_geojson`: one feature per segment, skipping segments whose
geometry does not intersect the loaded boundary.  The boundary polygon
(`gpd.read_file(...).geometry.unary_union` for a named boundary, absent for
`waco_boundary="none"`) is modelled by its segment-intersection predicate. -/
def get_progress_geojson (a : Analyzer)
    (waco_limits : Option (Pt × Pt → Bool)) : List GeoFeature :=
  a.segments_df.enum.filterMap fun e =>
    match waco_limits with
    | some w =>
      if w e.2.geometry then some (mkGeoFeature a e.1 e.2) else none
    | none => some (mkGeoFeature a e.1 e.2)

/-- The dict returned by `analyze_coverage`. -/
structure CoverageStats where
  total_streets : ℕ
  traveled_streets : ℕ
  coverage_percentage : ℚ
deriving DecidableEq

/-- `analyze_coverage`: counts of total and traveled streets (a street is
traveled when some traveled segment carries its `street_id`), restricted to
an optional boundary given by its street- and segment-intersection
predicates; the percentage is guarded by `total_streets > 0`. -/
def analyze_coverage (a : Analyzer)
    (limits : Option ((StreetRow → Bool) × (SegRec → Bool))) : CoverageStats :=
  let total_streets :=
    match limits with
    | none => a.streets_gdf.length
    | some w => (a.streets_gdf.filter w.1).length
  let traveledSegs :=
    match limits with
    | none =>
      a.segments_df.enum.filter fun (e : ℕ × SegRec) =>
        decide (e.1 ∈ a.traveled_segments)
    | some w =>
      a.segments_df.enum.filter fun (e : ℕ × SegRec) =>
        decide (e.1 ∈ a.traveled_segments) && w.2 e.2
  let traveled_streets := ((traveledSegs.map fun e => e.2.street_id).dedup).length
  { total_streets := total_streets
    traveled_streets := traveled_streets
    coverage_percentage :=
      if 0 < total_streets then
        (traveled_streets : ℚ) / (total_streets : ℚ) * 100
      else 0 }

/-! ## Route Matcher as specified (§4.3 of the spec) -/

/-- Does the route polyline pass within `tol` of segment `s`, i.e. does the
route buffered by `tol` intersect `s`?  Exact test via squared distances. -/
def withinTol (ps : List Pt) (s : Pt × Pt) (tol : ℚ) : Bool :=
  (pairsOf ps).any fun pq =>
    decide (segSegDistSq pq.1 pq.2 s.1 s.2 ≤ tol * tol)

/-- Modelled from the spec: the per-route algorithm of §4.3, which the
source `_process_route` does not implement.  Reject routes with fewer
than two points; broad phase: query the spatial index with the route
bounding box; narrow phase: keep the candidates intersecting the route
buffered by `tolerance`. -/
def specMatchRoute (a : Analyzer) (ps : List Pt) (tolerance : ℚ) : Finset ℕ :=
  if ps.length < 2 then ∅
  else
    let routeBox := bboxOfPts ps
    let candidates := a.spatial_index.filter fun e => rectIntersects e.2 routeBox
    ((candidates.filter fun e =>
        match a.segments_df.get? e.1 with
        | some s => withinTol ps s.geometry tolerance
        | none => false).map Prod.fst).toFinset

/-- The point `Point(c[0], c[1])` of one raw coordinate array (meaningful
when the array has at least two entries). -/
def ptOf (c : List ℚ) : Pt := (c.getD 0 0, c.getD 1 0)

/-- The points `Point(c[0], c[1])` of a route raw coordinate arrays
(meaningful when every array has at least two entries). -/
def ptsOfCoords (coords : List (List ℚ)) : List Pt :=
  coords.map ptOf

/-- The `if` gate of `_process_route`: either endpoint of the pair is
strictly inside `waco_box`. -/
def pairGate (a : Analyzer) (p q : Pt) : Bool :=
  boxContains a.waco_bbox p || boxContains a.waco_bbox q

/-- The traveled-segment set a successfully processed route contributes
(`∅` for a route whose processing raised). -/
def okSet (a : Analyzer) (r : Route) : Finset ℕ :=
  ((process_route a r).toOption).getD ∅

/-! ## geojson_handler.py — historical archive -/

/-- The `properties.timestamp` of a stored feature: absent, non-numeric
(`float(…)` raises `ValueError`), or a numeric value. -/
inductive TsProp where
  | missing : TsProp
  | invalid : TsProp
  | val : ℚ → TsProp
deriving DecidableEq

/-- A stored historical GeoJSON feature: its timestamp property and the
raw coordinates of its geometry. -/
structure Feature where
  ts : TsProp
  coords : List (List ℚ)
deriving DecidableEq

/-- The archive in-memory `monthly_data`: an insertion-ordered map from
`"YYYY-MM"` to that month feature list (one shard file each). -/
abbrev MonthlyData := List (String × List Feature)

/-- `monthly_data[k].append(f)` on a `defaultdict(list)`. -/
def appendShard (m : MonthlyData) (k : String) (f : Feature) : MonthlyData :=
  if m.any fun p => p.1 = k then
    m.map fun p => if p.1 = k then (p.1, p.2 ++ [f]) else p
  else m ++ [(k, [f])]

/-- The features currently stored in shard `k`. -/
def shardOf (m : MonthlyData) (k : String) : List Feature :=
  (((m.find? fun p => p.1 = k).map Prod.snd).getD [])

/-- The first loop of `_update_monthly_files`: append every new feature to
the shard of its timestamp month.  Accessing a missing or non-numeric
timestamp raises.  No timestamp-based deduplication is performed. -/
def updateMonthlyFilesAux : MonthlyData → List Feature → Except String MonthlyData
  | m, [] => .ok m
  | m, f :: rest =>
    match f.ts with
    | .val q => updateMonthlyFilesAux (appendShard m (monthKey q) f) rest
    | _ => .error "KeyError"

/-- `_update_monthly_files`: group the incoming features into `monthly_data`
by month key and rewrite each touched shard file with its full feature
list (the persisted shard equals the returned map entry). -/
def update_monthly_files (m : MonthlyData) (new_features : List Feature) :
    Except String MonthlyData :=
  updateMonthlyFilesAux m new_features

/-! ## geojson_handler.py — date-range filter -/

/-- `clip_route_to_boundary` is modelled by the clipping oracle
`clip : Feature → Option (List (List ℚ))`: the clipped coordinates of the
feature geometry inside the boundary, or `none` when the intersection is
empty or the geometry type is unsupported.  The emitted feature keeps the
original properties (hence the original timestamp). -/
def clipWith (clip : Feature → Option (List (List ℚ))) (f : Feature) :
    Option Feature :=
  match clip f with
  | some cs => some { f with coords := cs }
  | none => none

/-- `filter_geojson_features`: keep the features whose integer-second
timestamp, as a UTC datetime, lies in
`[get_start_of_day start, get_end_of_day end]` (both datetimes in µs);
then apply the optional bounding-box test and the optional boundary clip.
Features with a missing timestamp are skipped with a warning; a
non-numeric timestamp raises `ValueError`, which is caught and skips the
feature. -/
def filter_geojson_features (features : List Feature) (start_date end_date : ℤ)
    (filter_waco : Bool) (waco_limits : Option (Feature → Option (List (List ℚ))))
    (bounds : Option BBox) (bboxHit : Feature → BBox → Bool) : List Feature :=
  let start_datetime := get_start_of_day start_date
  let end_datetime := get_end_of_day end_date
  features.filterMap fun f =>
    match f.ts with
    | .missing => none
    | .invalid => none
    | .val q =>
      let t := pyInt q
      if start_datetime ≤ t * 1000000 ∧ t * 1000000 ≤ end_datetime then
        if (match bounds with
            | some b => bboxHit f b
            | none => true) then
          match filter_waco, waco_limits with
          | true, some clip => clipWith clip f
          | _, _ => some f
        else none
      else none

/-! ## geojson_handler.py — update_waco_streets_progress -/

/-- A row of the street file as read by `update_waco_streets_progress`,
including the `traveled` column the function `|=` requires. -/
structure WacoRow where
  coords : List Pt
  traveled : Bool
deriving DecidableEq

/-- Total `waco_streets.length.sum()` in the raw CRS of the street file
(geographic degrees): no reprojection happens in this function. -/
def wacoTotalLength (dist : Pt → Pt → ℚ) (rows : List WacoRow) : ℚ :=
  (rows.map fun r => polyLength dist r.coords).sum

/-- `update_waco_streets_progress`: or each street `traveled` flag with
intersection against every historical route (the street-vs-route
intersection is the oracle `hits`), then divide traveled length by total
length — both computed from the file raw coordinates — with no guard:
a zero total yields no numeric result (NaN / error), modelled as `none`. -/
def update_waco_streets_progress (dist : Pt → Pt → ℚ) (rows : List WacoRow)
    (hist : List Feature) (hits : List Pt → Feature → Bool) : Option ℚ :=
  let rows' := rows.map fun r =>
    { r with traveled := r.traveled || hist.any fun f => hits r.coords f }
  let total_length := wacoTotalLength dist rows'
  let traveled_length := wacoTotalLength dist (rows'.filter WacoRow.traveled)
  if total_length = 0 then none
  else some (traveled_length / total_length * 100)

/-- Modelled from the spec: the same computation with every length taken
after reprojection of the coordinates (`length` "computed after
reprojection into a locally accurate planar CRS", §3), for comparison with
the source raw-CRS computation. -/
def specProjectedWacoProgress (proj : Pt → Pt) (dist : Pt → Pt → ℚ)
    (rows : List WacoRow) (hist : List Feature)
    (hits : List Pt → Feature → Bool) : Option ℚ :=
  let rows' := rows.map fun r =>
    { r with traveled := r.traveled || hist.any fun f => hits r.coords f }
  let total_length := (rows'.map fun r => polyLength dist (r.coords.map proj)).sum
  let traveled_length :=
    ((rows'.filter WacoRow.traveled).map fun r =>
      polyLength dist (r.coords.map proj)).sum
  if total_length = 0 then none
  else some (traveled_length / total_length * 100)

/-! ## Concrete instantiations used by counterexamples and witnesses -/

/-- Identity CRS transform, used to instantiate the reprojection
parameter on concrete inputs. -/
def demoProj : String → Pt → Pt := fun _ p => p

/-- A concrete nonnegative metric (taxicab; it agrees with the Euclidean
length on axis-aligned segments) used to instantiate the geometry
library length metric on concrete inputs. -/
def demoDist (p q : Pt) : ℚ := |q.1 - p.1| + |q.2 - p.2|

/-- A two-street demo network: one street along `y = 0` and one along
`y = 10`, so `waco_bbox = (0, 0, 10, 10)`. -/
def demoStreets : List StreetRow :=
  [{ street_id := "s1", name := "a", coords := [(0, 0), (10, 0)] },
   { street_id := "s2", name := "b", coords := [(0, 10), (10, 10)] }]

/-- The demo analyzer over `demoStreets` with `snap_distance = 1`. -/
def demoA : Analyzer := mkAnalyzer demoProj demoProj demoDist demoStreets 1

/-- A single-street network along `y = 0` between `x = 2` and `x = 8`. -/
def c1Streets : List StreetRow :=
  [{ street_id := "s1", name := "a", coords := [(2, 0), (8, 0)] }]

/-- Analyzer over `c1Streets` with `snap_distance = 1`. -/
def c1A : Analyzer := mkAnalyzer demoProj demoProj demoDist c1Streets 1

/-- A route passing within distance `4/√29 < 1` of the `c1Streets` segment
without touching it. -/
def c1Route : List (List ℚ) := [[0, 0], [10, 4]]

/-- A route crossing the demo network first segment, with both endpoints
inside `waco_bbox`’s interior or crossing it. -/
def goodRoute : Route := some [[5, 5], [5, -1]]

/-- A route whose second coordinate array has a single entry, so
`Point(coords[1][0], coords[1][1])` raises `IndexError`. -/
def badRoute : Route := some [[0, 0], [1]]

/-- A second well-formed route, crossing the demo network other
segment. -/
def goodRoute2 : Route := some [[1, 5], [1, 11]]

/-- A stored feature timestamped 2020-08-01 00:00:00 UTC. -/
def f0 : Feature := { ts := .val 1596240000, coords := [[0, 0], [1, 1]] }

/-- An archive state whose 2020-08 shard already contains `f0`. -/
def m0 : MonthlyData := [("2020-08", [f0])]

/-- A feature timestamped at 23:59:59 of the epoch day. -/
def f86399 : Feature := { ts := .val 86399, coords := [[0, 0], [1, 1]] }

/-- The analyzer built over an empty street network: total length 0. -/
def emptyA : Analyzer := mkAnalyzer demoProj demoProj demoDist [] 1

/-- A non-uniform planar reprojection (doubles the first coordinate), used
to separate raw-CRS lengths from reprojected lengths. -/
def projX : Pt → Pt := fun p => (2 * p.1, p.2)

/-- Two street-file rows: a traveled unit segment on the x-axis and an
untraveled length-3 segment on the y-axis. -/
def c8Rows : List WacoRow :=
  [{ coords := [(0, 0), (1, 0)], traveled := true },
   { coords := [(0, 0), (0, 3)], traveled := false }]

/-- A route/street intersection oracle that never fires. -/
def zeroHits : List Pt → Feature → Bool := fun _ _ => false

/-- A concrete boundary-intersection predicate: segments whose first
vertex has latitude at most 5. -/
def demoBoundary : Pt × Pt → Bool := fun s => decide (s.1.2 ≤ 5)

end EveryStreet

deriving instance DecidableEq for Except

namespace EveryStreet

/-! ## Helper lemmas -/

theorem mem_foldl_union (ss : List (Finset ℕ)) (init : Finset ℕ) (i : ℕ) :
    i ∈ ss.foldl (fun t s => t ∪ s) init ↔ i ∈ init ∨ ∃ s ∈ ss, i ∈ s := by
  induction ss generalizing init with
  | nil => simp
  | cons s ss ih =>
    rw [List.foldl_cons, ih]
    simp only [Finset.mem_union, List.mem_cons]
    constructor
    · rintro ((h | h) | ⟨t, ht, hi⟩)
      · exact Or.inl h
      · exact Or.inr ⟨s, Or.inl rfl, h⟩
      · exact Or.inr ⟨t, Or.inr ht, hi⟩
    · rintro (h | ⟨t, (rfl | ht), hi⟩)
      · exact Or.inl (Or.inl h)
      · exact Or.inl (Or.inr hi)
      · exact Or.inr ⟨t, ht, hi⟩

theorem chunksOfFuel_flatten {α : Type _} (n : ℕ) (hn : 0 < n) :
    ∀ (fuel : ℕ) (l : List α), l.length ≤ fuel →
      (chunksOfFuel n fuel l).flatten = l := by
  intro fuel
  induction fuel with
  | zero =>
    intro l hl
    cases l with
    | nil => rfl
    | cons x xs => simp at hl
  | succ fuel ih =>
    intro l hl
    cases l with
    | nil => rfl
    | cons x xs =>
      have hl2 : xs.length ≤ fuel := by simpa using hl
      simp only [chunksOfFuel, List.flatten_cons]
      rw [ih ((x :: xs).drop n)
        (by simp only [List.length_drop, List.length_cons]; omega)]
      exact List.take_append_drop n (x :: xs)

theorem chunksOf_flatten {α : Type _} (n : ℕ) (hn : 0 < n) (l : List α) :
    (chunksOf n l).flatten = l :=
  chunksOfFuel_flatten n hn l.length l le_rfl

theorem mem_segHits {a : Analyzer} {p q : Pt} {i : ℕ} :
    i ∈ segHits a p q ↔ ∃ s, a.segments_df[i]? = some s ∧
      segIntersects s.geometry.1 s.geometry.2 p q = true := by
  unfold segHits
  simp only [List.mem_toFinset, List.mem_map, List.mem_filter,
    List.mem_enum_iff_getElem?]
  constructor
  · rintro ⟨e, ⟨hget, hint⟩, rfl⟩
    exact ⟨e.2, hget, hint⟩
  · rintro ⟨s, hget, hint⟩
    exact ⟨(i, s), ⟨hget, hint⟩, rfl⟩

theorem mkPoint_of_two_le {c : List ℚ} (h : 2 ≤ c.length) :
    mkPoint c = .ok (ptOf c) := by
  match c with
  | x :: y :: rest => rfl
  | [] => simp at h
  | [x] => simp at h

theorem processRoutePairs_ok (a : Analyzer) :
    ∀ (ps : List (List ℚ × List ℚ)) (acc : Finset ℕ),
      (∀ c ∈ ps, 2 ≤ c.1.length ∧ 2 ≤ c.2.length) →
      ∃ S, processRoutePairs a ps acc = .ok S ∧
        ∀ i, i ∈ S ↔ i ∈ acc ∨ ∃ c ∈ ps,
          pairGate a (ptOf c.1) (ptOf c.2) = true ∧
          i ∈ segHits a (ptOf c.1) (ptOf c.2) := by
  intro ps
  induction ps with
  | nil =>
    intro acc _
    exact ⟨acc, rfl, by simp⟩
  | cons c rest ih =>
    intro acc h
    have h1 := (h c (List.mem_cons_self c rest)).1
    have h2 := (h c (List.mem_cons_self c rest)).2
    have hrest : ∀ d ∈ rest, 2 ≤ d.1.length ∧ 2 ≤ d.2.length :=
      fun d hd => h d (List.mem_cons_of_mem c hd)
    obtain ⟨S, hS, hmem⟩ := ih
      (if pairGate a (ptOf c.1) (ptOf c.2) then
        acc ∪ segHits a (ptOf c.1) (ptOf c.2) else acc) hrest
    refine ⟨S, ?_, ?_⟩
    · simp only [processRoutePairs, mkPoint_of_two_le h1, mkPoint_of_two_le h2]
      rw [← hS]
      rfl
    · intro i
      rw [hmem i]
      by_cases hg : pairGate a (ptOf c.1) (ptOf c.2) = true
      · simp only [if_pos hg, Finset.mem_union, List.mem_cons]
        constructor
        · rintro ((hi | hi) | ⟨d, hd, hgd, hid⟩)
          · exact Or.inl hi
          · exact Or.inr ⟨c, Or.inl rfl, hg, hi⟩
          · exact Or.inr ⟨d, Or.inr hd, hgd, hid⟩
        · rintro (hi | ⟨d, (rfl | hd), hgd, hid⟩)
          · exact Or.inl (Or.inl hi)
          · exact Or.inl (Or.inr hid)
          · exact Or.inr ⟨d, hd, hgd, hid⟩
      · simp only [if_neg hg, List.mem_cons]
        constructor
        · rintro (hi | ⟨d, hd, hgd, hid⟩)
          · exact Or.inl hi
          · exact Or.inr ⟨d, Or.inr hd, hgd, hid⟩
        · rintro (hi | ⟨d, (rfl | hd), hgd, hid⟩)
          · exact Or.inl hi
          · exact absurd hgd hg
          · exact Or.inr ⟨d, hd, hgd, hid⟩

theorem processChunkAux_ok (a : Analyzer) :
    ∀ (l : List Route) (acc : Finset ℕ),
      (∀ r ∈ l, ∃ s, process_route a r = .ok s) →
      ∃ S, processChunkAux a l acc = .ok S ∧
        ∀ i, i ∈ S ↔ i ∈ acc ∨ ∃ r ∈ l, i ∈ okSet a r := by
  intro l
  induction l with
  | nil =>
    intro acc _
    exact ⟨acc, rfl, by simp⟩
  | cons r rest ih =>
    intro acc h
    obtain ⟨s, hs⟩ := h r (List.mem_cons_self r rest)
    have hrest : ∀ r2 ∈ rest, ∃ s, process_route a r2 = .ok s :=
      fun r2 h2 => h r2 (List.mem_cons_of_mem r h2)
    obtain ⟨S, hS, hmem⟩ := ih (acc ∪ s) hrest
    refine ⟨S, ?_, ?_⟩
    · simp only [processChunkAux, hs]
      exact hS
    · intro i
      rw [hmem i]
      have hok : okSet a r = s := by simp only [okSet, hs]; rfl
      simp only [Finset.mem_union, List.mem_cons, hok]
      constructor
      · rintro ((hi | hi) | ⟨r2, h2, hi⟩)
        · exact Or.inl hi
        · exact Or.inr ⟨r, Or.inl rfl, hok ▸ hi⟩
        · exact Or.inr ⟨r2, Or.inr h2, hi⟩
      · rintro (hi | ⟨r2, (rfl | h2), hi⟩)
        · exact Or.inl (Or.inl hi)
        · exact Or.inl (Or.inr (hok ▸ hi))
        · exact Or.inr ⟨r2, h2, hi⟩

theorem mapExcept_ok_chunks (a : Analyzer) :
    ∀ (cs : List (List Route)),
      (∀ r ∈ cs.flatten, ∃ s, process_route a r = .ok s) →
      ∃ results, mapExcept (process_chunk a) cs = .ok results ∧
        ∀ (init : Finset ℕ) (i : ℕ),
          i ∈ results.foldl (fun t s => t ∪ s) init ↔
            i ∈ init ∨ ∃ r ∈ cs.flatten, i ∈ okSet a r := by
  intro cs
  induction cs with
  | nil =>
    intro _
    exact ⟨[], rfl, by simp⟩
  | cons c rest ih =>
    intro h
    have hc : ∀ r ∈ c, ∃ s, process_route a r = .ok s := fun r hr =>
      h r (List.mem_flatten.mpr ⟨c, List.mem_cons_self c rest, hr⟩)
    have hrest : ∀ r ∈ rest.flatten, ∃ s, process_route a r = .ok s := by
      intro r hr
      obtain ⟨l2, hl2, hr2⟩ := List.mem_flatten.mp hr
      exact h r (List.mem_flatten.mpr ⟨l2, List.mem_cons_of_mem c hl2, hr2⟩)
    obtain ⟨Sc, hSc, hmemc⟩ := processChunkAux_ok a c ∅ hc
    obtain ⟨results, hres, hmem⟩ := ih hrest
    refine ⟨Sc :: results, ?_, ?_⟩
    · simp only [mapExcept, process_chunk, hSc, hres]
    · intro init i
      rw [List.foldl_cons, hmem (init ∪ Sc) i]
      have hSci : ∀ i, i ∈ Sc ↔ ∃ r ∈ c, i ∈ okSet a r := by
        intro j
        rw [hmemc j]
        simp
      simp only [Finset.mem_union, List.flatten_cons, List.mem_append]
      constructor
      · rintro ((hi | hi) | ⟨r, hr, hi⟩)
        · exact Or.inl hi
        · obtain ⟨r, hr, hi⟩ := (hSci i).mp hi
          exact Or.inr ⟨r, Or.inl hr, hi⟩
        · exact Or.inr ⟨r, Or.inr hr, hi⟩
      · rintro (hi | ⟨r, (hr | hr), hi⟩)
        · exact Or.inl (Or.inl hi)
        · exact Or.inl (Or.inr ((hSci i).mpr ⟨r, hr, hi⟩))
        · exact Or.inr ⟨r, hr, hi⟩

theorem processChunkAux_error (a : Analyzer) :
    ∀ (l : List Route) (acc : Finset ℕ) (r : Route) (e : String),
      r ∈ l → process_route a r = .error e →
      ∃ e2, processChunkAux a l acc = .error e2 := by
  intro l
  induction l with
  | nil =>
    intro acc r e hr _
    exact absurd hr (List.not_mem_nil r)
  | cons r2 rest ih =>
    intro acc r e hr he
    cases hpr : process_route a r2 with
    | error e2 => exact ⟨e2, by simp only [processChunkAux, hpr]⟩
    | ok s =>
      rcases List.mem_cons.mp hr with rfl | hr2
      · rw [hpr] at he
        exact absurd he (by simp)
      · obtain ⟨e2, h2⟩ := ih (acc ∪ s) r e hr2 he
        exact ⟨e2, by simp only [processChunkAux, hpr]; exact h2⟩

theorem mapExcept_error_chunks (a : Analyzer) :
    ∀ (cs : List (List Route)) (c : List Route) (r : Route) (e : String),
      c ∈ cs → r ∈ c → process_route a r = .error e →
      ∃ e2, mapExcept (process_chunk a) cs = .error e2 := by
  intro cs
  induction cs with
  | nil =>
    intro c r e hc _ _
    exact absurd hc (List.not_mem_nil c)
  | cons c2 rest ih =>
    intro c r e hc hr he
    cases hpc : process_chunk a c2 with
    | error e2 => exact ⟨e2, by simp only [mapExcept, hpc]⟩
    | ok s =>
      rcases List.mem_cons.mp hc with rfl | hc2
      · obtain ⟨e2, h2⟩ := processChunkAux_error a c ∅ r e hr he
        rw [show process_chunk a c = processChunkAux a c ∅ from rfl, h2] at hpc
        exact absurd hpc (by simp)
      · obtain ⟨e2, h2⟩ := ih c r e hc2 hr he
        refine ⟨e2, ?_⟩
        simp only [mapExcept, hpc, h2]

theorem sumFilter_mono {T Tbig : Finset ℕ} (hsub : T ⊆ Tbig) :
    ∀ (l : List (ℕ × SegRec)), (∀ p ∈ l, 0 ≤ p.2.length) →
      ((l.filter fun e => decide (e.1 ∈ T)).map fun e => e.2.length).sum ≤
      ((l.filter fun e => decide (e.1 ∈ Tbig)).map fun e => e.2.length).sum := by
  intro l
  induction l with
  | nil => intro _; simp
  | cons p rest ih =>
    intro h
    have hp := h p (List.mem_cons_self p rest)
    have hrest := fun q hq => h q (List.mem_cons_of_mem p hq)
    by_cases h1 : p.1 ∈ T
    · have h2 : p.1 ∈ Tbig := hsub h1
      simp only [List.filter_cons, decide_eq_true_eq, if_pos h1, if_pos h2,
        List.map_cons, List.sum_cons]
      exact add_le_add_left (ih hrest) _
    · by_cases h2 : p.1 ∈ Tbig
      · simp only [List.filter_cons, decide_eq_true_eq, if_neg h1, if_pos h2,
          List.map_cons, List.sum_cons]
        exact (ih hrest).trans (le_add_of_nonneg_left hp)
      · simp only [List.filter_cons, decide_eq_true_eq, if_neg h1, if_neg h2]
        exact ih hrest

theorem enum_length_nonneg {a : Analyzer}
    (hlen : ∀ s ∈ a.segments_df, 0 ≤ s.length) :
    ∀ p ∈ a.segments_df.enum, 0 ≤ p.2.length :=
  fun p hp => hlen p.2 (List.snd_mem_of_mem_enum hp)

theorem totalLength_nonneg {a : Analyzer}
    (hlen : ∀ s ∈ a.segments_df, 0 ≤ s.length) : 0 ≤ totalLength a := by
  apply List.sum_nonneg
  intro x hx
  obtain ⟨s, hs, rfl⟩ := List.mem_map.mp hx
  exact hlen s hs

theorem traveledLength_mono {a : Analyzer} {Tbig : Finset ℕ}
    (hsub : a.traveled_segments ⊆ Tbig)
    (hlen : ∀ s ∈ a.segments_df, 0 ≤ s.length) :
    traveledLength a ≤ traveledLength { a with traveled_segments := Tbig } :=
  sumFilter_mono hsub a.segments_df.enum (enum_length_nonneg hlen)

theorem calculate_progress_mono {a : Analyzer} {Tbig : Finset ℕ}
    (hsub : a.traveled_segments ⊆ Tbig)
    (hlen : ∀ s ∈ a.segments_df, 0 ≤ s.length) :
    calculate_progress a ≤
      calculate_progress { a with traveled_segments := Tbig } := by
  have htot : totalLength { a with traveled_segments := Tbig } = totalLength a := rfl
  unfold calculate_progress
  rw [htot]
  by_cases h : totalLength a = 0
  · rw [if_pos h, if_pos h]
  · have hpos : 0 < totalLength a :=
      lt_of_le_of_ne (totalLength_nonneg hlen) (Ne.symm h)
    rw [if_neg h, if_neg h]
    apply mul_le_mul_of_nonneg_right _ (by norm_num : (0 : ℚ) ≤ 100)
    rw [div_le_div_iff_of_pos_right hpos]
    exact traveledLength_mono hsub hlen

theorem traveledLength_of_empty {a : Analyzer}
    (h : a.traveled_segments = ∅) : traveledLength a = 0 := by
  unfold traveledLength
  rw [h]
  simp

theorem shardOf_map_update (k : String) (f : Feature) :
    ∀ m : MonthlyData, m.any (fun p => p.1 = k) = true →
      shardOf (m.map fun p => if p.1 = k then (p.1, p.2 ++ [f]) else p) k =
        shardOf m k ++ [f] := by
  intro m
  induction m with
  | nil => intro h; simp at h
  | cons p rest ih =>
    intro h
    by_cases hp : p.1 = k
    · simp only [List.map_cons, if_pos hp]
      unfold shardOf
      rw [List.find?_cons_of_pos _ (by simpa using hp),
        List.find?_cons_of_pos _ (by simpa using hp)]
      simp
    · have hrest : rest.any (fun p => p.1 = k) = true := by
        simp only [List.any_cons] at h
        rcases Bool.or_eq_true_iff.mp h with h1 | h1
        · exact absurd (of_decide_eq_true h1) hp
        · exact h1
      simp only [List.map_cons, if_neg hp]
      unfold shardOf
      rw [List.find?_cons_of_neg _ (by simpa using hp),
        List.find?_cons_of_neg _ (by simpa using hp)]
      exact ih hrest

theorem shardOf_appendShard (m : MonthlyData) (k : String) (f : Feature) :
    shardOf (appendShard m k f) k = shardOf m k ++ [f] := by
  unfold appendShard
  by_cases hany : m.any (fun p => p.1 = k) = true
  · rw [if_pos hany]
    exact shardOf_map_update k f m hany
  · rw [if_neg hany]
    have hnone : m.find? (fun p => decide (p.1 = k)) = none := by
      rw [List.find?_eq_none]
      intro x hx
      intro hxk
      exact hany (List.any_eq_true.mpr ⟨x, hx, hxk⟩)
    have hm : shardOf m k = [] := by
      unfold shardOf
      rw [hnone]
      rfl
    unfold shardOf
    rw [List.find?_append, hnone]
    simp [hm]

theorem filterMap_boundary (a : Analyzer) (w : Pt × Pt → Bool) :
    ∀ l : List (ℕ × SegRec),
      (l.filterMap fun e =>
        if w e.2.geometry then some (mkGeoFeature a e.1 e.2) else none) =
      (l.filterMap fun e => some (mkGeoFeature a e.1 e.2)).filter
        fun g => w g.geometry := by
  intro l
  induction l with
  | nil => rfl
  | cons e rest ih =>
    have hgeom : (mkGeoFeature a e.1 e.2).geometry = e.2.geometry := rfl
    cases hw : w e.2.geometry with
    | false =>
      simp only [List.filterMap_cons, hw, Bool.false_eq_true, if_false, ih,
        List.filter_cons, hgeom]
    | true =>
      simp only [List.filterMap_cons, hw, if_true, ih, List.filter_cons]
      rw [if_pos (by simp [hgeom, hw])]

/-! ## Claim theorems -/

/-- C1 (amended): the source per-route matching does not implement the
spec buffered broad/narrow-phase algorithm.  For a well-formed route,
`_process_route` returns exactly the positional indices of segments whose
geometry intersects the raw, unbuffered line of some consecutive
coordinate pair whose endpoints pass the `waco_box` containment gate; the
snap tolerance and the spatial index are never consulted. -/
theorem c1_route_matcher_amended (a : Analyzer) (coords : List (List ℚ))
    (h : ∀ c ∈ coords, 2 ≤ c.length) :
    ∃ S, process_route a (some coords) = .ok S ∧
      ∀ i, i ∈ S ↔ ∃ c ∈ coords.zip coords.tail,
        pairGate a (ptOf c.1) (ptOf c.2) = true ∧
        i ∈ segHits a (ptOf c.1) (ptOf c.2) := by
  have hwf : ∀ c ∈ coords.zip coords.tail, 2 ≤ c.1.length ∧ 2 ≤ c.2.length := by
    intro c hc
    obtain ⟨c1, c2⟩ := c
    have hm := List.of_mem_zip hc
    exact ⟨h c1 hm.1, h c2 (List.mem_of_mem_tail hm.2)⟩
  obtain ⟨S, hS, hmem⟩ := processRoutePairs_ok a (coords.zip coords.tail) ∅ hwf
  refine ⟨S, hS, ?_⟩
  intro i
  rw [hmem i]
  simp

/-- C2 (amended): archive ingestion performs no timestamp deduplication:
`_update_monthly_files` appends every incoming feature to the shard of its
timestamp month unconditionally, so re-ingesting a feature whose
timestamp is already present adds a second copy. -/
theorem c2_dedup_amended (m : MonthlyData) (f : Feature) (q : ℚ)
    (hts : f.ts = .val q) :
    ∃ m2, update_monthly_files m [f] = .ok m2 ∧
      shardOf m2 (monthKey q) = shardOf m (monthKey q) ++ [f] := by
  refine ⟨appendShard m (monthKey q) f, ?_, shardOf_appendShard m (monthKey q) f⟩
  simp only [update_monthly_files, updateMonthlyFilesAux, hts]

/-- C6 (amended): the analyzer `calculate_progress` and
`analyze_coverage` guard their divisions and return 0 on a zero
denominator, but `GeoJSONHandler.update_waco_streets_progress` divides
without a guard: on a network of zero total length it yields no numeric
result (NaN, modelled as `none`) rather than a zero-valued one. -/
theorem c6_zero_denominator_amended :
    (∀ a : Analyzer, totalLength a = 0 → calculate_progress a = 0) ∧
    (∀ (a : Analyzer) (limits : Option ((StreetRow → Bool) × (SegRec → Bool))),
       (analyze_coverage a limits).total_streets = 0 →
       (analyze_coverage a limits).coverage_percentage = 0) ∧
    (∀ (dist : Pt → Pt → ℚ) (hist : List Feature)
       (hits : List Pt → Feature → Bool),
       update_waco_streets_progress dist [] hist hits = none) := by
  refine ⟨?_, ?_, ?_⟩
  · intro a h
    unfold calculate_progress
    rw [if_pos h]
  · intro a limits h
    simp only [analyze_coverage] at h ⊢
    simp [h]
  · intro dist hist hits
    simp [update_waco_streets_progress, wacoTotalLength]

/-- C7 (amended): a worker exception while matching one route aborts the
whole batch: `process_chunk` has no per-route isolation, and
`update_progress` logs and re-raises, so the batch operation fails and no
partial traveled-set union is applied (the returned error carries no
state, so a full retry cannot double-count). -/
theorem c7_worker_exception_amended (a : Analyzer) (routes : List Route)
    (nproc : ℕ) (r : Route) (e : String) (hr : r ∈ routes)
    (he : process_route a r = .error e) :
    ∃ e2, update_progress a routes nproc = .error e2 := by
  have h1 : (0 : ℕ) < max 1 (routes.length / (nproc - 1)) := le_max_left 1 _
  have hflat := chunksOf_flatten (max 1 (routes.length / (nproc - 1))) h1 routes
  have hrm : r ∈ (chunksOf (max 1 (routes.length / (nproc - 1))) routes).flatten := by
    rw [hflat]
    exact hr
  obtain ⟨c, hc, hrc⟩ := List.mem_flatten.mp hrm
  obtain ⟨e2, h2⟩ := mapExcept_error_chunks a _ c r e hc hrc he
  exact ⟨e2, by simp only [update_progress, h2]⟩

/-- C9: boundary filtering of the progress GeoJSON is correct: the
boundary-restricted output is exactly the unrestricted output filtered to
features whose segment geometry intersects the boundary, so a
non-intersecting segment never appears, and an intersecting segment
carries the same `traveled` value (membership of its index in the global
`traveled_segments`) as in the unfiltered output. -/
theorem c9_boundary_filter (a : Analyzer) (w : Pt × Pt → Bool) :
    get_progress_geojson a (some w) =
      (get_progress_geojson a none).filter (fun g => w g.geometry) ∧
    (∀ g ∈ get_progress_geojson a (some w), w g.geometry = true) ∧
    (∀ e ∈ a.segments_df.enum,
      (mkGeoFeature a e.1 e.2).traveled = decide (e.1 ∈ a.traveled_segments)) := by
  have hmain := filterMap_boundary a w a.segments_df.enum
  refine ⟨hmain, ?_, fun e _ => rfl⟩
  intro g hg
  rw [show get_progress_geojson a (some w) =
      (get_progress_geojson a none).filter (fun g => w g.geometry) from hmain] at hg
  exact (List.mem_filter.mp hg).2

/-- C10: `reset_progress` clears only `traveled_segments`; the segment
table, street network, spatial index, bounding box and snap distance are
unchanged, and a subsequent `calculate_progress` over a network of
positive total length returns exactly 0. -/
theorem c10_reset_frame (a : Analyzer) :
    (reset_progress a).traveled_segments = ∅ ∧
    (reset_progress a).segments_df = a.segments_df ∧
    (reset_progress a).streets_gdf = a.streets_gdf ∧
    (reset_progress a).spatial_index = a.spatial_index ∧
    (reset_progress a).waco_bbox = a.waco_bbox ∧
    (reset_progress a).snap_distance = a.snap_distance ∧
    (0 < totalLength a → calculate_progress (reset_progress a) = 0) := by
  refine ⟨rfl, rfl, rfl, rfl, rfl, rfl, ?_⟩
  intro hpos
  have htrav : traveledLength (reset_progress a) = 0 := traveledLength_of_empty rfl
  have htot : totalLength (reset_progress a) = totalLength a := rfl
  unfold calculate_progress
  rw [htot, if_neg (ne_of_gt hpos), htrav, zero_div, zero_mul]

/-- C3: the historical filter is inclusive on both ends of the date
range: every returned feature has a numeric timestamp whose UTC datetime
lies in `[get_start_of_day start, get_end_of_day end]` (soundness, also
under the optional bbox and boundary-clip filters, since clipping keeps
the feature properties); and with the optional geometric filters off,
every stored feature in that closed range — in particular one at the very
end of the end day — is returned. -/
theorem c3_date_range_filter (features : List Feature) (s e : ℤ) (fw : Bool)
    (wl : Option (Feature → Option (List (List ℚ)))) (bnd : Option BBox)
    (bt : Feature → BBox → Bool) :
    (∀ g ∈ filter_geojson_features features s e fw wl bnd bt,
       ∃ q, g.ts = .val q ∧ get_start_of_day s ≤ pyInt q * 1000000 ∧
         pyInt q * 1000000 ≤ get_end_of_day e) ∧
    (∀ f ∈ features, ∀ q, f.ts = .val q →
       get_start_of_day s ≤ pyInt q * 1000000 →
       pyInt q * 1000000 ≤ get_end_of_day e →
       f ∈ filter_geojson_features features s e false none none bt) := by
  constructor
  · intro g hg
    simp only [filter_geojson_features] at hg
    obtain ⟨f, hf, hsome⟩ := List.mem_filterMap.mp hg
    cases hts : f.ts with
    | missing => rw [hts] at hsome; exact absurd hsome (by simp)
    | invalid => rw [hts] at hsome; exact absurd hsome (by simp)
    | val q =>
      rw [hts] at hsome
      simp only at hsome
      by_cases hrange : get_start_of_day s ≤ pyInt q * 1000000 ∧
          pyInt q * 1000000 ≤ get_end_of_day e
      · refine ⟨q, ?_, hrange.1, hrange.2⟩
        rw [if_pos hrange] at hsome
        have hts_eq : g.ts = f.ts := by
          split at hsome
          · split at hsome
            · unfold clipWith at hsome
              split at hsome
              · have hg2 := Option.some.inj hsome
                rw [← hg2]
              · exact absurd hsome (by simp)
            · have hg2 := Option.some.inj hsome
              rw [← hg2]
          · exact absurd hsome (by simp)
        rw [hts_eq, hts]
      · rw [if_neg hrange] at hsome
        exact absurd hsome (by simp)
  · intro f hf q hts h1 h2
    simp only [filter_geojson_features]
    apply List.mem_filterMap.mpr
    refine ⟨f, hf, ?_⟩
    rw [hts]
    simp only
    rw [if_pos ⟨h1, h2⟩]
    simp

/-- C4: batch matching is order-independent: for any chunking of the
batch (any grouping, any order) whose flattening is a permutation of the
routes, mapping `process_chunk` over the chunks succeeds and the union of
the per-chunk traveled sets equals the set produced by processing the
routes one at a time sequentially; consequently `update_progress` yields
the same final traveled set for every worker count (hence every chunk
size). -/
theorem c4_order_independence (a : Analyzer) (routes : List Route)
    (chunks : List (List Route)) (hperm : chunks.flatten.Perm routes)
    (hok : ∀ r ∈ routes, ∃ s, process_route a r = .ok s) :
    ∃ results S,
      mapExcept (process_chunk a) chunks = .ok results ∧
      process_chunk a routes = .ok S ∧
      results.foldl (fun t s => t ∪ s) ∅ = S ∧
      ∀ nproc, ∃ p, update_progress a routes nproc =
        .ok ({ a with traveled_segments := a.traveled_segments ∪ S }, p) := by
  obtain ⟨S, hS, hmemS⟩ := processChunkAux_ok a routes ∅ hok
  have hSmem : ∀ i, i ∈ S ↔ ∃ r ∈ routes, i ∈ okSet a r := by
    intro i
    rw [hmemS i]
    simp
  have hokc : ∀ r ∈ chunks.flatten, ∃ s, process_route a r = .ok s :=
    fun r hr => hok r (hperm.mem_iff.mp hr)
  obtain ⟨results, hres, hmem⟩ := mapExcept_ok_chunks a chunks hokc
  refine ⟨results, S, hres, hS, ?_, ?_⟩
  · apply Finset.ext
    intro i
    rw [hmem ∅ i, hSmem i]
    simp only [Finset.not_mem_empty, false_or]
    constructor
    · rintro ⟨r, hr, hi⟩
      exact ⟨r, hperm.mem_iff.mp hr, hi⟩
    · rintro ⟨r, hr, hi⟩
      exact ⟨r, hperm.mem_iff.mpr hr, hi⟩
  · intro nproc
    have h1 : (0 : ℕ) < max 1 (routes.length / (nproc - 1)) := le_max_left 1 _
    have hflat := chunksOf_flatten (max 1 (routes.length / (nproc - 1))) h1 routes
    have hokc2 : ∀ r ∈ (chunksOf (max 1 (routes.length / (nproc - 1)))
        routes).flatten, ∃ s, process_route a r = .ok s := by
      rw [hflat]
      exact hok
    obtain ⟨results2, hres2, hmem2⟩ :=
      mapExcept_ok_chunks a (chunksOf (max 1 (routes.length / (nproc - 1))) routes)
        hokc2
    have hfold : results2.foldl (fun t s => t ∪ s) a.traveled_segments =
        a.traveled_segments ∪ S := by
      apply Finset.ext
      intro i
      rw [hmem2 a.traveled_segments i, Finset.mem_union, hSmem i, hflat]
    refine ⟨calculate_progress
      { a with traveled_segments := a.traveled_segments ∪ S }, ?_⟩
    simp only [update_progress, hres2, hfold]

/-- C5: coverage percentage is monotonic: applying a (non-empty) delta of
traveled segment IDs by set union never lowers `calculate_progress` (given
the nonnegative lengths the geometry library produces), the traveled set
only grows, and every successful `update_progress` call likewise never
lowers the percentage; the percentage decreases only through an explicit
`reset_progress`. -/
theorem c5_progress_monotonic (a : Analyzer) (delta : Finset ℕ)
    (hlen : ∀ s ∈ a.segments_df, 0 ≤ s.length) (hne : delta.Nonempty) :
    calculate_progress a ≤ calculate_progress (applyDelta a delta) ∧
    a.traveled_segments ⊆ (applyDelta a delta).traveled_segments ∧
    ∀ routes nproc a2 p, update_progress a routes nproc = .ok (a2, p) →
      calculate_progress a ≤ calculate_progress a2 := by
  refine ⟨calculate_progress_mono Finset.subset_union_left hlen,
    Finset.subset_union_left, ?_⟩
  intro routes nproc a2 p h
  cases hm : mapExcept (process_chunk a)
      (chunksOf (max 1 (routes.length / (nproc - 1))) routes) with
  | error e =>
    simp only [update_progress, hm] at h
    exact absurd h (by simp)
  | ok results =>
    simp only [update_progress, hm] at h
    have hpair := Except.ok.inj h
    have ha2 : a2 = { a with traveled_segments :=
        (results.foldl (fun t s => t ∪ s) a.traveled_segments) } :=
      (congrArg Prod.fst hpair).symm
    rw [ha2]
    exact calculate_progress_mono
      (fun i hi => (mem_foldl_union results a.traveled_segments i).mpr (Or.inl hi))
      hlen

end EveryStreet

set_option allowUnsafeReducibility true

section ConcreteEvaluation

attribute [local semireducible] Rat.add Rat.mul Rat.sub Rat.div Rat.inv Rat.neg

namespace EveryStreet

/-- C8 (amended): every segment length of the analyzer segment table is
computed, once at build time, from the coordinates reprojected into the
centroid-derived UTM CRS; but `GeoJSONHandler.update_waco_streets_progress`
computes its coverage percentage from lengths in the street file raw
geographic CRS, which differs from the reprojected computation. -/
theorem c8_projected_lengths_amended :
    (∀ (proj unproj : String → Pt → Pt) (dist : Pt → Pt → ℚ)
       (raw : List StreetRow) (snap : ℚ),
       (mkAnalyzer proj unproj dist raw snap).segments_df.map SegRec.length =
         raw.flatMap fun st =>
           (pairsOf (st.coords.map (proj (get_utm_crs raw)))).map fun pq =>
             dist pq.1 pq.2) ∧
    (update_waco_streets_progress demoDist c8Rows [] zeroHits = some 25 ∧
     specProjectedWacoProgress projX demoDist c8Rows [] zeroHits = some 40) := by
  constructor
  · intro proj unproj dist raw snap
    simp only [mkAnalyzer, process_streets_into_segments]
    rw [List.map_map, List.map_flatMap, List.flatMap_map]
    refine congrArg raw.flatMap (funext fun st => ?_)
    unfold segmentsOfStreet
    rw [List.map_map]
    conv_rhs => rw [← List.enum_map_snd
      (pairsOf (st.coords.map (proj (get_utm_crs raw))))]
    rw [List.map_map]
    rfl
  · exact ⟨by decide, by decide⟩

/-- C1 (counterexample): on a one-segment network with `snap_distance = 1`
and a route passing within distance `4/√29 < 1` of the segment without
touching it, `_process_route` returns the empty set while the spec
buffered broad/narrow-phase algorithm returns the segment: the code does
not follow the spec per-route algorithm. -/
theorem c1_route_matcher_counterexample :
    process_route c1A (some c1Route) = .ok ∅ ∧
    specMatchRoute c1A (ptsOfCoords c1Route) c1A.snap_distance = {0} ∧
    process_route c1A (some c1Route) ≠
      .ok (specMatchRoute c1A (ptsOfCoords c1Route) c1A.snap_distance) := by
  exact ⟨by decide, by decide, by decide⟩

/-- C1 (witness): a well-formed route crossing the demo network, on which
the amended per-route characterisation is instantiated. -/
theorem c1_route_matcher_witness :
    (∀ c ∈ ([[5, 5], [5, -1]] : List (List ℚ)), 2 ≤ c.length) ∧
    ∃ S, process_route demoA (some [[5, 5], [5, -1]]) = .ok S ∧
      ∀ i, i ∈ S ↔ ∃ c ∈ ([[5, 5], [5, -1]] : List (List ℚ)).zip
          ([[5, 5], [5, -1]] : List (List ℚ)).tail,
        pairGate demoA (ptOf c.1) (ptOf c.2) = true ∧
        i ∈ segHits demoA (ptOf c.1) (ptOf c.2) :=
  ⟨by decide, c1_route_matcher_amended demoA [[5, 5], [5, -1]] (by decide)⟩

/-- C2 (counterexample): re-ingesting `f0`, whose timestamp is already
present in its month shard, is not a no-op: the shard ends with two
stored copies. -/
theorem c2_dedup_counterexample :
    update_monthly_files m0 [f0] = .ok [("2020-08", [f0, f0])] ∧
    (shardOf [("2020-08", [f0, f0])] "2020-08").count f0 = 2 ∧
    update_monthly_files m0 [f0] ≠ .ok m0 := by
  exact ⟨by decide, by decide, by decide⟩

/-- C2 (witness): the amended append-only characterisation instantiated
at the `m0`/`f0` re-ingestion. -/
theorem c2_dedup_witness :
    f0.ts = .val 1596240000 ∧
    ∃ m2, update_monthly_files m0 [f0] = .ok m2 ∧
      shardOf m2 (monthKey 1596240000) =
        shardOf m0 (monthKey 1596240000) ++ [f0] :=
  ⟨rfl, c2_dedup_amended m0 f0 1596240000 rfl⟩

/-- C3 (witness): a feature at 23:59:59 of the end day is returned by the
filter over the range consisting of that single day. -/
theorem c3_date_range_witness :
    (f86399.ts = .val 86399 ∧
     get_start_of_day 43200000000 ≤ pyInt 86399 * 1000000 ∧
     pyInt 86399 * 1000000 ≤ get_end_of_day 43200000000) ∧
    f86399 ∈ filter_geojson_features [f86399] 43200000000 43200000000 false none
      none (fun _ _ => true) :=
  ⟨⟨rfl, by decide, by decide⟩,
   (c3_date_range_filter [f86399] 43200000000 43200000000 false none none
      (fun _ _ => true)).2 f86399 (by decide) 86399 rfl (by decide) (by decide)⟩

/-- C4 (witness): a two-route batch chunked in reversed order yields the
same traveled set as sequential processing. -/
theorem c4_order_independence_witness :
    ([[goodRoute2], [goodRoute]] : List (List Route)).flatten.Perm
        [goodRoute, goodRoute2] ∧
    ∃ results S,
      mapExcept (process_chunk demoA) [[goodRoute2], [goodRoute]] = .ok results ∧
      process_chunk demoA [goodRoute, goodRoute2] = .ok S ∧
      results.foldl (fun t s => t ∪ s) ∅ = S ∧
      ∀ nproc, ∃ p, update_progress demoA [goodRoute, goodRoute2] nproc =
        .ok ({ demoA with
          traveled_segments := demoA.traveled_segments ∪ S }, p) :=
  ⟨by decide, c4_order_independence demoA [goodRoute, goodRoute2]
    [[goodRoute2], [goodRoute]] (by decide)
    (by
      intro r hr
      rcases List.mem_cons.mp hr with rfl | hr2
      · exact ⟨{0}, by decide⟩
      · rcases List.mem_cons.mp hr2 with rfl | h3
        · exact ⟨{1}, by decide⟩
        · exact absurd h3 (List.not_mem_nil r))⟩

/-- C5 (witness): applying the delta `{0}` to the fresh demo analyzer
raises the percentage from 0 to 50, consistently with monotonicity. -/
theorem c5_progress_monotonic_witness :
    ((∀ s ∈ demoA.segments_df, 0 ≤ s.length) ∧ ({0} : Finset ℕ).Nonempty) ∧
    calculate_progress demoA = 0 ∧
    calculate_progress (applyDelta demoA {0}) = 50 ∧
    calculate_progress demoA ≤ calculate_progress (applyDelta demoA {0}) :=
  ⟨⟨by decide, by decide⟩, by decide, by decide,
   (c5_progress_monotonic demoA {0} (by decide) (by decide)).1⟩

/-- C6 (counterexample): on an empty street network (total length 0),
`update_waco_streets_progress` yields no numeric result at all — not the
zero-valued result the claim asserts. -/
theorem c6_zero_denominator_counterexample :
    update_waco_streets_progress demoDist [] [] zeroHits = none ∧
    update_waco_streets_progress demoDist [] [] zeroHits ≠ some 0 := by
  exact ⟨by decide, by decide⟩

/-- C6 (witness): the analyzer built over an empty network has total
length 0 and its guarded `calculate_progress` returns 0. -/
theorem c6_zero_denominator_witness :
    totalLength emptyA = 0 ∧ calculate_progress emptyA = 0 :=
  ⟨by decide, c6_zero_denominator_amended.1 emptyA (by decide)⟩

/-- C7 (counterexample): a batch containing one well-formed contributing
route and one malformed route does not complete: `update_progress`
re-raises the `IndexError`, and the good route contribution is not
applied — contradicting the claim per-route isolation. -/
theorem c7_worker_exception_counterexample :
    process_route demoA goodRoute = .ok {0} ∧
    process_route demoA badRoute = .error "IndexError" ∧
    update_progress demoA [goodRoute, badRoute] 8 = .error "IndexError" := by
  exact ⟨by decide, by decide, by decide⟩

/-- C7 (witness): the amended abort-propagation theorem instantiated at
the concrete failing batch. -/
theorem c7_worker_exception_witness :
    (badRoute ∈ [goodRoute, badRoute] ∧
     process_route demoA badRoute = .error "IndexError") ∧
    ∃ e2, update_progress demoA [goodRoute, badRoute] 8 = .error e2 :=
  ⟨⟨by decide, by decide⟩,
   c7_worker_exception_amended demoA [goodRoute, badRoute] 8 badRoute
     "IndexError" (by decide) (by decide)⟩

/-- C8 (counterexample): with a non-uniform reprojection, the raw-CRS
percentage computed by `update_waco_streets_progress` (25%) differs from
the reprojected-length computation the claim asserts (40%): the lengths
it uses are raw geographic-CRS distances. -/
theorem c8_projected_lengths_counterexample :
    update_waco_streets_progress demoDist c8Rows [] zeroHits = some 25 ∧
    specProjectedWacoProgress projX demoDist c8Rows [] zeroHits = some 40 ∧
    update_waco_streets_progress demoDist c8Rows [] zeroHits ≠
      specProjectedWacoProgress projX demoDist c8Rows [] zeroHits := by
  exact ⟨by decide, by decide, by decide⟩

/-- C9 (witness): boundary filtering of the demo analyzer with one
traveled segment keeps exactly the intersecting segment, with its global
`traveled` value. -/
theorem c9_boundary_filter_witness :
    get_progress_geojson (applyDelta demoA {0}) (some demoBoundary) =
      (get_progress_geojson (applyDelta demoA {0}) none).filter
        (fun g => demoBoundary g.geometry) ∧
    get_progress_geojson (applyDelta demoA {0}) (some demoBoundary) =
      [{ geometry := ((0, 0), (10, 0)), segment_id := "s1_0", street_id := "s1",
         name := "a", traveled := true }] :=
  ⟨(c9_boundary_filter (applyDelta demoA {0}) demoBoundary).1, by decide⟩

/-- C10 (witness): resetting the demo analyzer with one traveled segment
drops the percentage from 50 to exactly 0 over the unchanged network. -/
theorem c10_reset_frame_witness :
    0 < totalLength (applyDelta demoA {0}) ∧
    calculate_progress (applyDelta demoA {0}) = 50 ∧
    calculate_progress (reset_progress (applyDelta demoA {0})) = 0 :=
  ⟨by decide, by decide,
   (c10_reset_frame (applyDelta demoA {0})).2.2.2.2.2.2 (by decide)⟩

end EveryStreet

end ConcreteEvaluation
